import Mathlib

/-!
Shallow embedding of `src/App.js` (a single-page user-directory app) and
proofs of its specified observable behaviour: the search filter
(`useUsersFiltered`), the add-user form validation and submission
(`UserForm`), the add-user prepend (`ListPage.addUser`), the fetch mapping,
the list table rendering (`UsersTable`) and the detail page rendering
(`UserDetailsPage`, `DetailRow`).

JavaScript strings are modelled as Lean `String`s; the JS string methods
used by the source (`trim`, `toLowerCase`, `includes`) are implemented
below on the character list, and the one regular expression of the source
is implemented as an executable matcher.
-/

/-! ## JS string primitives -/

/-- Model of `String.prototype.trim`: drop whitespace from both ends. -/
def trimL (l : List Char) : List Char :=
  ((l.dropWhile Char.isWhitespace).reverse.dropWhile Char.isWhitespace).reverse

/-- `s.trim()` of JS. -/
def jsTrim (s : String) : String :=
  ⟨trimL s.data⟩

/-- `s.toLowerCase()` of JS (ASCII case mapping, as the data here is ASCII). -/
def jsToLower (s : String) : String :=
  ⟨s.data.map Char.toLower⟩

/-- `sub` occurs at the start of `l`. -/
def isPre : List Char → List Char → Bool
  | [], _ => true
  | _ :: _, [] => false
  | a :: as, b :: bs => a == b && isPre as bs

/-- `sub` occurs somewhere inside `l`. -/
def isSub (sub : List Char) : List Char → Bool
  | [] => sub.isEmpty
  | b :: bs => isPre sub (b :: bs) || isSub sub bs

/-- Model of `s.includes(sub)` of JS: substring containment. -/
def jsIncludes (s sub : String) : Bool :=
  isSub sub.data s.data

/-- Model of the JS expression `v || dflt` for an optional string `v`
(`undefined` and the empty string are falsy). -/
def jsOrS (v : Option String) (dflt : String) : String :=
  match v with
  | none => dflt
  | some s => if s = "" then dflt else s

/-! ## Data model -/

/-- The `address` object of a remote user record. -/
structure RemoteAddress where
  street : String
  suite : String
  city : String
  zipcode : String
deriving DecidableEq

/-- The `company` object of a remote user record. -/
structure RemoteCompany where
  name : String
deriving DecidableEq

/-- A record of the remote directory (`GET /users` element or `GET /users/:id`
body); the optional fields may be absent. -/
structure RemoteUser where
  id : Nat
  name : String
  email : String
  company : Option RemoteCompany := none
  phone : Option String := none
  website : Option String := none
  address : Option RemoteAddress := none
deriving DecidableEq

/-- A user of the session collection held by `ListPage`: either a mapped
fetched record, or a client-created record (whose `phone`, `website`,
`address` are absent). -/
structure User where
  id : Nat
  name : String
  email : String
  company : String
  phone : Option String := none
  website : Option String := none
  address : Option RemoteAddress := none
deriving DecidableEq

/-- The transient form draft `{name, email, company}` of `UserForm`. -/
structure Draft where
  name : String
  email : String
  company : String
deriving DecidableEq

/-! ## The filter hook (`useUsersFiltered`, App.js lines 12-22) -/

/-- The per-user test of App.js lines 17-19:
`u.name.toLowerCase().includes(q) || u.email.toLowerCase().includes(q)`. -/
def userMatches (u : User) (q : String) : Bool :=
  jsIncludes (jsToLower u.name) q || jsIncludes (jsToLower u.email) q

/-- App.js lines 12-22: `q = search.trim().toLowerCase()`; if `q` is empty
return `users` unchanged, else keep the users matching `q`. -/
def useUsersFiltered (users : List User) (search : String) : List User :=
  let q := jsToLower (jsTrim search)
  if q = "" then users else users.filter (fun u => userMatches u q)

/-! ## Basic lemmas about the string primitives -/

theorem trimL_eq_nil_of_all_ws {l : List Char}
    (h : ∀ c ∈ l, c.isWhitespace = true) : trimL l = [] := by
  unfold trimL
  have h1 : l.dropWhile Char.isWhitespace = [] :=
    List.dropWhile_eq_nil_iff.mpr h
  simp [h1]

theorem all_ws_of_trimL_eq_nil {l : List Char}
    (h : trimL l = []) : ∀ c ∈ l, c.isWhitespace = true := by
  unfold trimL at h
  rw [List.reverse_eq_nil_iff, List.dropWhile_eq_nil_iff] at h
  intro c hc
  by_contra hw
  have hsplit := List.takeWhile_append_dropWhile
    (p := Char.isWhitespace) (l := l)
  rw [← hsplit] at hc
  rcases List.mem_append.mp hc with h1 | h2
  · exact hw (List.mem_takeWhile_imp h1)
  · exact hw (h c (List.mem_reverse.mpr h2))

theorem jsTrim_ne_empty_of_mem {s : String} {c : Char}
    (hc : c ∈ s.data) (hw : c.isWhitespace = false) : jsTrim s ≠ "" := by
  intro h
  have hnil : trimL s.data = [] := congrArg String.data h
  have := all_ws_of_trimL_eq_nil hnil c hc
  rw [hw] at this
  exact Bool.false_ne_true this

example : useUsersFiltered [] "abc" = [] := by decide
example : jsTrim "  a b  " = "a b" := by decide
example : jsToLower "AbC" = "abc" := by decide
example : jsIncludes "hello" "ell" = true := by decide
example : jsIncludes "hello" "xyz" = false := by decide

/-! ## The form (`UserForm`, App.js lines 64-115) -/

/-- A character of the class `[^\s@]` of the email regular expression:
neither whitespace nor `@`. -/
def atomChar (c : Char) : Bool :=
  !c.isWhitespace && c != '@'

/-- Executable matcher for the anchored regular expression
`^[^\s@]+@[^\s@]+\.[^\s@]+$` of App.js line 74. A string matches iff it
splits as `a ++ "@" ++ b ++ "." ++ c` with `a`, `b`, `c` nonempty strings of
`[^\s@]` characters: equivalently, a nonempty `[^\s@]` prefix is followed by
`@`, the remainder consists of `[^\s@]` characters, and it has a `.` that is
neither its first nor its last character. -/
def emailOk (e : String) : Bool :=
  let a := e.data.takeWhile atomChar
  let r := e.data.dropWhile atomChar
  !a.isEmpty && (r.head? == some '@') && r.tail.all atomChar &&
    r.tail.tail.dropLast.contains '.'

example : emailOk "ann@example.com" = true := by decide
example : emailOk "bob@x" = false := by decide
example : emailOk "a@b.c" = true := by decide
example : emailOk "a@.c" = false := by decide
example : emailOk "a@b." = false := by decide
example : emailOk "@b.c" = false := by decide
example : emailOk "a b@c.d" = false := by decide
example : emailOk "a@b c.d" = false := by decide
example : emailOk "a@@b.c" = false := by decide
example : emailOk "a@b.c.d" = true := by decide
example : emailOk "" = false := by decide

/-- The `errors` object of App.js lines 70-76 as an ordered association
list: a `name` error when the name trims to empty, an `email` error when the
email trims to empty or fails the pattern. The body reads only `name` and
`email`; `company` is never validated. -/
def formErrors (d : Draft) : List (String × String) :=
  (if jsTrim d.name = "" then [("name", "Name is required")] else []) ++
  (if jsTrim d.email = "" then [("email", "Email is required")]
   else if !emailOk d.email then [("email", "Invalid email")] else [])

/-- The `submit` handler of App.js lines 78-84, as the observable outcome:
the list of `addUser` callback invocations (each with its draft argument)
and whether `onClose` was invoked. If any validation error exists, submission
aborts with no callback; otherwise `addUser({name, email, company})` is
called once and the form closes. -/
def submitForm (d : Draft) : List Draft × Bool :=
  if formErrors d = [] then ([d], true) else ([], false)

/-! ## Add-user and the fetch mapping (`ListPage`, App.js lines 143-175) -/

/-- The object literal `{id: Date.now(), name, email, company}` of App.js
line 163; `now` stands for the value of `Date.now()`. -/
def newUser (now : Nat) (d : Draft) : User :=
  { id := now, name := d.name, email := d.email, company := d.company }

/-- `addUser` of App.js lines 162-164: prepend the new record to the
session collection. -/
def addUser (now : Nat) (d : Draft) (users : List User) : List User :=
  newUser now d :: users

/-- The fetch mapping of App.js lines 151-159: each remote record becomes a
session `User`, with `company` defaulted from `u.company?.name || "—"` and
`phone`/`website` defaulted by `|| "—"`. -/
def mapRemote (u : RemoteUser) : User :=
  { id := u.id, name := u.name, email := u.email,
    company := jsOrS (u.company.map RemoteCompany.name) "—",
    phone := some (jsOrS u.phone "—"),
    website := some (jsOrS u.website "—"),
    address := u.address }

/-! ## List rendering (`UsersTable`, App.js lines 117-141) -/

/-- What `UsersTable` renders: the "No users found." message or a table of
rows. -/
inductive TableView where
  | noUsers
  | table (rows : List User)
deriving DecidableEq

/-- App.js line 118: `if (!users.length)` render "No users found.", else the
table of the given users. -/
def usersTable (users : List User) : TableView :=
  if users.isEmpty then TableView.noUsers else TableView.table users

/-- The table `ListPage` renders (App.js lines 166 and 172): `UsersTable`
applied to the filtered collection. -/
def listPageTable (users : List User) (search : String) : TableView :=
  usersTable (useUsersFiltered users search)

/-- The company cell of a table row, App.js line 135: `u.company || "—"`. -/
def companyCell (u : User) : String :=
  if u.company = "" then "—" else u.company

/-! ## Detail page (`UserDetailsPage` and `DetailRow`, App.js lines 177-216) -/

/-- The raw detail record exactly as parsed from the single-record fetch
body: every field may be absent (the body can be any object, even `{}`). -/
structure UserDetail where
  name : Option String := none
  email : Option String := none
  phone : Option String := none
  website : Option String := none
  company : Option String := none
  address : Option RemoteAddress := none
deriving DecidableEq

/-- The value cell of `DetailRow`, App.js line 181: `value || "—"`. -/
def detailRow (value : Option String) : String :=
  jsOrS value "—"

/-- The composed address string of App.js lines 199-201:
``user.address ? `${street}, ${suite}, ${city} ${zipcode}` : "—"``. -/
def addressText (a : Option RemoteAddress) : String :=
  match a with
  | some ad => ad.street ++ ", " ++ ad.suite ++ ", " ++ ad.city ++ " " ++ ad.zipcode
  | none => "—"

/-- What `UserDetailsPage` renders: the "Loading..." placeholder, or the
detail layout (name heading, company line, labelled rows). -/
inductive DetailView where
  | loading
  | page (name : Option String) (company : Option String)
      (rows : List (String × String))
deriving DecidableEq

/-- App.js lines 197-215: with `user = null` render "Loading..."; otherwise
render the layout with rows Email, Phone, Website, Address, each value
defaulted by `DetailRow` (the address row receives the composed
`addressText` string). -/
def renderDetailPage (st : Option UserDetail) : DetailView :=
  match st with
  | none => DetailView.loading
  | some u =>
      DetailView.page u.name u.company
        [("Email", detailRow u.email),
         ("Phone", detailRow u.phone),
         ("Website", detailRow u.website),
         ("Address", detailRow (some (addressText u.address)))]

/-- One state transition of `UserDetailsPage`: the only state update is the
fetch continuation `.then(u => setUser(u))` (App.js line 194), which
replaces `user` with the parsed body (`none` models a parsed `null`). The
state starts as `none` (`useState(null)`, line 188). -/
def detailStep (_st : Option UserDetail) (parsed : Option UserDetail) :
    Option UserDetail :=
  parsed

/-- The state of `UserDetailsPage` after a sequence of fetch resolutions
(an empty sequence models a fetch that failed or never resolved: no
rejection handler exists, so no other event can touch the state). -/
def detailRun (events : List (Option UserDetail)) : Option UserDetail :=
  events.foldl detailStep none

example : renderDetailPage (detailRun []) = DetailView.loading := by decide
example : renderDetailPage (detailRun [some {}]) ≠ DetailView.loading := by decide

/-! ## Auxiliary lemmas -/

theorem email_at_mem {e : String} (h : emailOk e = true) : '@' ∈ e.data := by
  simp only [emailOk, Bool.and_eq_true, beq_iff_eq] at h
  obtain ⟨⟨⟨_, hhead⟩, _⟩, _⟩ := h
  have hmem : '@' ∈ e.data.dropWhile atomChar := by
    rcases hr : e.data.dropWhile atomChar with _ | ⟨c, t⟩
    · rw [hr] at hhead; simp at hhead
    · rw [hr] at hhead
      simp only [List.head?_cons, Option.some.injEq] at hhead
      rw [hhead]
      exact List.mem_cons_self _ _
  have hsplit := List.takeWhile_append_dropWhile (p := atomChar) (l := e.data)
  rw [← hsplit]
  exact List.mem_append.mpr (Or.inr hmem)

theorem detailRun_all_none {evs : List (Option UserDetail)}
    (h : ∀ e ∈ evs, e = none) : detailRun evs = none := by
  unfold detailRun
  induction evs with
  | nil => rfl
  | cons a t ih =>
    rw [List.foldl_cons, show detailStep none a = none from h a (List.mem_cons_self _ _)]
    exact ih (fun e he => h e (List.mem_cons_of_mem _ he))

/-! ## The claims -/

/-- C1: for every user collection and search string, `useUsersFiltered`
returns an order-preserving subsequence of the input; with an empty or
whitespace-only search it is the unchanged input; with a nonempty trimmed
query `q` it contains exactly the users whose lower-cased name or email
contains `q` as a substring. -/
theorem claim1_filter_spec (users : List User) (s : String) :
    List.Sublist (useUsersFiltered users s) users ∧
    ((∀ c ∈ s.data, c.isWhitespace = true) → useUsersFiltered users s = users) ∧
    (jsToLower (jsTrim s) ≠ "" →
      ∀ u, u ∈ useUsersFiltered users s ↔
        u ∈ users ∧ userMatches u (jsToLower (jsTrim s)) = true) := by
  refine ⟨?_, ?_, ?_⟩
  · unfold useUsersFiltered
    by_cases h : jsToLower (jsTrim s) = ""
    · simp only [h, if_pos]
      exact List.Sublist.refl users
    · simp only [h, if_neg, ite_false]
      exact List.filter_sublist users
  · intro hws
    have h0 : trimL s.data = [] := trimL_eq_nil_of_all_ws hws
    have hq : jsToLower (jsTrim s) = "" := by
      simp only [jsToLower, jsTrim, h0, List.map_nil]
    simp only [useUsersFiltered, hq, ite_true]
  · intro hq u
    simp only [useUsersFiltered, if_neg hq]
    exact List.mem_filter

theorem claim1_filter_spec_witness :
    useUsersFiltered [{ id := 1, name := "Ann", email := "ann@e.co", company := "" }] "   "
      = [{ id := 1, name := "Ann", email := "ann@e.co", company := "" }] ∧
    ({ id := 1, name := "Ann", email := "ann@e.co", company := "" } ∈
        useUsersFiltered
          [{ id := 1, name := "Ann", email := "ann@e.co", company := "" }] "Ann" ↔
      ({ id := 1, name := "Ann", email := "ann@e.co", company := "" } : User) ∈
          [({ id := 1, name := "Ann", email := "ann@e.co", company := "" } : User)] ∧
        userMatches { id := 1, name := "Ann", email := "ann@e.co", company := "" }
          (jsToLower (jsTrim "Ann")) = true) :=
  ⟨(claim1_filter_spec
      [{ id := 1, name := "Ann", email := "ann@e.co", company := "" }] "   ").2.1
      (by decide),
   (claim1_filter_spec
      [{ id := 1, name := "Ann", email := "ann@e.co", company := "" }] "Ann").2.2
      (by decide) _⟩

/-- C2: when the name is nonempty after trimming and the email matches the
pattern, submitting invokes the `addUser` callback exactly once, with the
draft `{name, email, company}`, and closes the form. -/
theorem claim2_submit_valid (d : Draft)
    (h1 : jsTrim d.name ≠ "") (h2 : emailOk d.email = true) :
    submitForm d = ([d], true) := by
  have htrim : jsTrim d.email ≠ "" :=
    jsTrim_ne_empty_of_mem (email_at_mem h2) (by decide)
  have herr : formErrors d = [] := by
    simp [formErrors, h1, htrim, h2]
  simp [submitForm, herr]

theorem claim2_submit_valid_witness :
    submitForm ⟨"Ann", "ann@example.com", ""⟩ =
      ([⟨"Ann", "ann@example.com", ""⟩], true) :=
  claim2_submit_valid ⟨"Ann", "ann@example.com", ""⟩ (by decide) (by decide)

/-- C3: a name empty after trimming yields the "Name is required" error and
no callback; a nonempty email failing the pattern (such as "bob@x") yields
the "Invalid email" error and no callback; the company field is never
validated. -/
theorem claim3_submit_invalid (d : Draft) :
    (jsTrim d.name = "" →
      ("name", "Name is required") ∈ formErrors d ∧ submitForm d = ([], false)) ∧
    (jsTrim d.email ≠ "" → emailOk d.email = false →
      ("email", "Invalid email") ∈ formErrors d ∧ submitForm d = ([], false)) ∧
    (∀ c, formErrors { d with company := c } = formErrors d) := by
  refine ⟨?_, ?_, ?_⟩
  · intro hn
    have hmem : ("name", "Name is required") ∈ formErrors d := by
      unfold formErrors
      rw [if_pos hn]
      exact List.mem_append.mpr (Or.inl (List.mem_singleton.mpr rfl))
    have hne : formErrors d ≠ [] := by
      intro h0
      rw [h0] at hmem
      exact List.not_mem_nil _ hmem
    exact ⟨hmem, by simp [submitForm, hne]⟩
  · intro he1 he2
    have hmem : ("email", "Invalid email") ∈ formErrors d := by
      unfold formErrors
      rw [if_neg he1]
      refine List.mem_append.mpr (Or.inr ?_)
      simp [he2]
    have hne : formErrors d ≠ [] := by
      intro h0
      rw [h0] at hmem
      exact List.not_mem_nil _ hmem
    exact ⟨hmem, by simp [submitForm, hne]⟩
  · intro c
    rfl

theorem claim3_submit_invalid_witness :
    (("name", "Name is required") ∈ formErrors ⟨"", "bob@x", "Acme"⟩ ∧
      submitForm ⟨"", "bob@x", "Acme"⟩ = ([], false)) ∧
    (("email", "Invalid email") ∈ formErrors ⟨"", "bob@x", "Acme"⟩ ∧
      submitForm ⟨"", "bob@x", "Acme"⟩ = ([], false)) ∧
    formErrors ⟨"", "bob@x", "Z"⟩ = formErrors ⟨"", "bob@x", "Acme"⟩ :=
  ⟨(claim3_submit_invalid ⟨"", "bob@x", "Acme"⟩).1 (by decide),
   (claim3_submit_invalid ⟨"", "bob@x", "Acme"⟩).2.1 (by decide) (by decide),
   (claim3_submit_invalid ⟨"", "bob@x", "Acme"⟩).2.2 "Z"⟩

/-- C4 counterexample: `addUser` performs no uniqueness check, so when the
`Date.now()` value equals an id already in the collection (two additions in
the same millisecond), the new id is NOT distinct from all existing ids. -/
theorem claim4_id_collision :
    (addUser 5 ⟨"New", "new@x.y", ""⟩
        [{ id := 5, name := "Old", email := "old@x.y", company := "" }]).map User.id
      = [5, 5] ∧
    ¬ ((addUser 5 ⟨"New", "new@x.y", ""⟩
        [{ id := 5, name := "Old", email := "old@x.y", company := "" }]).map
          User.id).Nodup := by
  exact ⟨rfl, by decide⟩

/-- C4 (amended): every add-user operation prepends exactly one new record
carrying the generated timestamp id and leaves the rest of the collection
unchanged; provided the generated timestamp differs from every id already in
the collection (no two additions in the same instant), the new id is
distinct from all existing ids and id-uniqueness is preserved at the moment
of insertion. -/
theorem claim4_addUser_amended (now : Nat) (d : Draft) (users : List User)
    (h : now ∉ users.map User.id) :
    addUser now d users = newUser now d :: users ∧
    (newUser now d).id = now ∧
    (∀ u ∈ users, (newUser now d).id ≠ u.id) ∧
    ((users.map User.id).Nodup → ((addUser now d users).map User.id).Nodup) := by
  refine ⟨rfl, rfl, ?_, ?_⟩
  · intro u hu heq
    exact h (List.mem_map.mpr ⟨u, hu, heq.symm⟩)
  · intro hnd
    unfold addUser
    rw [List.map_cons]
    exact List.nodup_cons.mpr ⟨h, hnd⟩

theorem claim4_addUser_amended_witness :
    addUser 7 ⟨"New", "new@x.y", ""⟩
        [{ id := 5, name := "Old", email := "old@x.y", company := "" }]
      = newUser 7 ⟨"New", "new@x.y", ""⟩ ::
        [{ id := 5, name := "Old", email := "old@x.y", company := "" }] ∧
    (newUser 7 ⟨"New", "new@x.y", ""⟩).id = 7 ∧
    (∀ u ∈ [({ id := 5, name := "Old", email := "old@x.y", company := "" } : User)],
      (newUser 7 ⟨"New", "new@x.y", ""⟩).id ≠ u.id) ∧
    (([({ id := 5, name := "Old", email := "old@x.y", company := "" } : User)].map
        User.id).Nodup →
      ((addUser 7 ⟨"New", "new@x.y", ""⟩
        [{ id := 5, name := "Old", email := "old@x.y", company := "" }]).map
          User.id).Nodup) :=
  claim4_addUser_amended 7 ⟨"New", "new@x.y", ""⟩
    [{ id := 5, name := "Old", email := "old@x.y", company := "" }] (by decide)

/-- C5: the detail view renders the "Loading..." placeholder in every state
without fetched data; a trace in which no fetch resolution ever delivers
data (such as a failed or never-resolving fetch for `/users/999`) renders
"Loading..." forever; the view leaves the loading state only when some
resolution delivered a non-null parsed body. -/
theorem claim5_loading (events : List (Option UserDetail)) :
    renderDetailPage none = DetailView.loading ∧
    ((∀ e ∈ events, e = none) →
      renderDetailPage (detailRun events) = DetailView.loading) ∧
    (detailRun events ≠ none → ∃ u, some u ∈ events) := by
  refine ⟨rfl, ?_, ?_⟩
  · intro h
    rw [detailRun_all_none h]
    rfl
  · intro hne
    by_contra hex
    push_neg at hex
    apply hne
    apply detailRun_all_none
    intro e he
    cases e with
    | none => rfl
    | some u => exact absurd he (hex u)

theorem claim5_loading_witness :
    renderDetailPage (detailRun [none]) = DetailView.loading ∧
    (∃ u, some u ∈ [some ({} : UserDetail)]) :=
  ⟨(claim5_loading [none]).2.1 (by decide),
   (claim5_loading [some ({} : UserDetail)]).2.2 (by decide)⟩

/-- C6: for a loaded user with an address, the rendered address text is
"street, suite, city zipcode"; the concrete example composes to
"Kulas Light, Apt. 556, Gwenborough 92998-3874"; a null address renders as
the placeholder dash, also through the row defaulting. -/
theorem claim6_address (ad : RemoteAddress) :
    addressText (some ad)
      = ad.street ++ ", " ++ ad.suite ++ ", " ++ ad.city ++ " " ++ ad.zipcode ∧
    addressText (some ⟨"Kulas Light", "Apt. 556", "Gwenborough", "92998-3874"⟩)
      = "Kulas Light, Apt. 556, Gwenborough 92998-3874" ∧
    addressText none = "—" ∧
    detailRow (some (addressText none)) = "—" :=
  ⟨rfl, by decide, rfl, by decide⟩

theorem claim6_address_witness :
    addressText (some ⟨"Kulas Light", "Apt. 556", "Gwenborough", "92998-3874"⟩)
      = "Kulas Light, Apt. 556, Gwenborough 92998-3874" ∧
    addressText none = "—" :=
  ⟨(claim6_address ⟨"Kulas Light", "Apt. 556", "Gwenborough", "92998-3874"⟩).2.1,
   (claim6_address ⟨"", "", "", ""⟩).2.2.1⟩

/-- C7: whenever the filtered collection is empty — in particular when the
session collection is empty because the initial fetch failed — the list
view renders the "No users found." message and no table; whenever it is
nonempty, the table of the filtered users is rendered. -/
theorem claim7_no_users (users : List User) (s : String) :
    (useUsersFiltered users s = [] → listPageTable users s = TableView.noUsers) ∧
    (useUsersFiltered users s ≠ [] →
      listPageTable users s = TableView.table (useUsersFiltered users s)) ∧
    listPageTable [] s = TableView.noUsers := by
  refine ⟨?_, ?_, ?_⟩
  · intro h
    unfold listPageTable usersTable
    rw [h]
    rfl
  · intro h
    unfold listPageTable usersTable
    simp [List.isEmpty_iff, h]
  · unfold listPageTable usersTable useUsersFiltered
    simp

theorem claim7_no_users_witness :
    listPageTable [] "x" = TableView.noUsers ∧
    listPageTable [{ id := 1, name := "Ann", email := "ann@e.co", company := "" }] ""
      = TableView.table
          (useUsersFiltered
            [{ id := 1, name := "Ann", email := "ann@e.co", company := "" }] "") :=
  ⟨(claim7_no_users [] "x").1 (by decide),
   (claim7_no_users
      [{ id := 1, name := "Ann", email := "ann@e.co", company := "" }] "").2.1
      (by decide)⟩

/-- C8: a missing or falsy `company`, `phone` or `website` each
independently renders as the placeholder dash "—" (never as the empty
string or the text "undefined"); for fetched users `company` is defaulted
to the dash at the mapping step when the nested company name is absent or
empty. -/
theorem claim8_dash (u : RemoteUser) (v : Option String) (w : User) :
    (u.company = none → (mapRemote u).company = "—") ∧
    (u.company.map RemoteCompany.name = some "" → (mapRemote u).company = "—") ∧
    (u.phone = none → (mapRemote u).phone = some "—") ∧
    (u.website = none → (mapRemote u).website = some "—") ∧
    (v = none ∨ v = some "" → detailRow v = "—") ∧
    (w.company = "" → companyCell w = "—") ∧
    ("—" ≠ "" ∧ "—" ≠ "undefined") := by
  refine ⟨?_, ?_, ?_, ?_, ?_, ?_, by decide⟩
  · intro h
    simp [mapRemote, h, jsOrS]
  · intro h
    simp [mapRemote, h, jsOrS]
  · intro h
    simp [mapRemote, h, jsOrS]
  · intro h
    simp [mapRemote, h, jsOrS]
  · rintro (rfl | rfl) <;> simp [detailRow, jsOrS]
  · intro h
    simp [companyCell, h]

theorem claim8_dash_witness :
    (mapRemote { id := 1, name := "A", email := "a@b.c" }).company = "—" ∧
    (mapRemote { id := 1, name := "A", email := "a@b.c" }).phone = some "—" ∧
    (mapRemote { id := 1, name := "A", email := "a@b.c" }).website = some "—" ∧
    detailRow none = "—" ∧
    companyCell { id := 1, name := "A", email := "a@b.c", company := "" } = "—" :=
  ⟨(claim8_dash { id := 1, name := "A", email := "a@b.c" } none
      { id := 1, name := "A", email := "a@b.c", company := "" }).1 rfl,
   (claim8_dash { id := 1, name := "A", email := "a@b.c" } none
      { id := 1, name := "A", email := "a@b.c", company := "" }).2.2.1 rfl,
   (claim8_dash { id := 1, name := "A", email := "a@b.c" } none
      { id := 1, name := "A", email := "a@b.c", company := "" }).2.2.2.1 rfl,
   (claim8_dash { id := 1, name := "A", email := "a@b.c" } none
      { id := 1, name := "A", email := "a@b.c", company := "" }).2.2.2.2.1
      (Or.inl rfl),
   (claim8_dash { id := 1, name := "A", email := "a@b.c" } none
      { id := 1, name := "A", email := "a@b.c", company := "" }).2.2.2.2.2.1 rfl⟩

/-- C9: if the fetch resolves and its parsed body is any non-null object —
even an object with none of the expected fields — the view exits the
loading state and renders the detail layout; for the empty object every
labelled row shows the placeholder dash. -/
theorem claim9_nonnull_exits_loading (evs : List (Option UserDetail))
    (u : UserDetail) :
    detailRun (evs ++ [some u]) = some u ∧
    renderDetailPage (some u) ≠ DetailView.loading ∧
    renderDetailPage (some ({} : UserDetail)) =
      DetailView.page none none
        [("Email", "—"), ("Phone", "—"), ("Website", "—"), ("Address", "—")] := by
  refine ⟨?_, ?_, by decide⟩
  · unfold detailRun
    rw [List.foldl_append]
    rfl
  · intro h
    simp [renderDetailPage] at h

theorem claim9_nonnull_exits_loading_witness :
    detailRun [some ({} : UserDetail)] = some ({} : UserDetail) ∧
    renderDetailPage (some ({} : UserDetail)) ≠ DetailView.loading :=
  ⟨(claim9_nonnull_exits_loading [] {}).1,
   (claim9_nonnull_exits_loading [] {}).2.1⟩

/-- C10: adding a user does not clear or bypass the current search: for a
search that is nonempty after trimming, the newly prepended user is in the
filtered collection iff its lower-cased name or email contains the trimmed
lower-cased query, and when it matches it is the first row. -/
theorem claim10_add_filter (now : Nat) (d : Draft) (users : List User)
    (s : String) (h : jsToLower (jsTrim s) ≠ "") :
    (newUser now d ∈ useUsersFiltered (addUser now d users) s ↔
      userMatches (newUser now d) (jsToLower (jsTrim s)) = true) ∧
    (userMatches (newUser now d) (jsToLower (jsTrim s)) = true →
      (useUsersFiltered (addUser now d users) s).head? = some (newUser now d)) := by
  constructor
  · simp only [useUsersFiltered, if_neg h]
    constructor
    · intro hm
      exact (List.mem_filter.mp hm).2
    · intro hm
      exact List.mem_filter.mpr ⟨List.mem_cons_self _ _, hm⟩
  · intro hm
    simp only [useUsersFiltered, if_neg h, addUser]
    rw [List.filter_cons_of_pos
      (p := fun u => userMatches u (jsToLower (jsTrim s))) hm]
    rfl

theorem claim10_add_filter_witness :
    (newUser 1 ⟨"Ann", "ann@e.co", ""⟩ ∈
        useUsersFiltered (addUser 1 ⟨"Ann", "ann@e.co", ""⟩ []) "Ann" ↔
      userMatches (newUser 1 ⟨"Ann", "ann@e.co", ""⟩)
        (jsToLower (jsTrim "Ann")) = true) ∧
    (userMatches (newUser 1 ⟨"Ann", "ann@e.co", ""⟩)
        (jsToLower (jsTrim "Ann")) = true →
      (useUsersFiltered (addUser 1 ⟨"Ann", "ann@e.co", ""⟩ []) "Ann").head?
        = some (newUser 1 ⟨"Ann", "ann@e.co", ""⟩)) :=
  claim10_add_filter 1 ⟨"Ann", "ann@e.co", ""⟩ [] "Ann" (by decide)
